import Mathlib

/-!
Shallow embedding of `rompy_xbeach/boundary.py` (XBeach wave boundary
conditions) and proofs about it.

Modelling conventions:
* Time instants are integers (seconds since an arbitrary epoch); the
  `total_seconds` of a datetime difference is the integer difference.
* An xarray time coordinate is modelled as a `List ℤ` of instants, strictly
  increasing for a well-formed time index.
* Python `None` is modelled by `Option.none`; a function that can raise is
  embedded in `Except String`, the error payload being the message built by
  the corresponding `raise` statement.
* Real-valued wave parameters are modelled over `ℝ` where the exactness of
  an algebraic identity matters, and over `ℚ` where records are manipulated
  symbolically.
-/

namespace RompyXBeach

/-- Embedding of `numpy.radians`: degrees to radians, `d * pi / 180`. -/
noncomputable def radians (d : ℝ) : ℝ := d * Real.pi / 180

/-- Conversion used by the spec's backward map: radians to degrees. -/
noncomputable def degrees (r : ℝ) : ℝ := r * 180 / Real.pi

/-- Embedding of `dspr_to_s` (boundary.py line 40): the Jonswap spreading
coefficient from the directional spread in degrees,
`(2 / np.radians(dspr)**2) - 1`.  The source body is a single arithmetic
expression with no validation and no raise statement. -/
noncomputable def dspr_to_s (dspr : ℝ) : ℝ := 2 / (radians dspr) ^ 2 - 1

/-- Calling `dspr_to_s` with an explicit error channel: since the source
function contains no `raise` and no check, every call returns normally
(numpy float division by zero yields `inf`, it does not raise). -/
noncomputable def dspr_to_s_call (dspr : ℝ) : Except String ℝ :=
  Except.ok (dspr_to_s dspr)

/-- Modelled from the spec: the backward map `dspr = degrees(sqrt(2/(s+1)))`
quoted by the spec's round-trip property.  It is not code of the repository;
it is the inverse candidate the spec names. -/
noncomputable def s_to_dspr_spec (s : ℝ) : ℝ := degrees (Real.sqrt (2 / (s + 1)))

/-- Embedding of the `BCFile` model (boundary.py line 57): two optional path
fields.  Paths are modelled as strings. -/
structure BCFile where
  bcfile : Option String
  filelist : Option String
  deriving DecidableEq, Repr

/-- Embedding of `BCFile` construction with its `bcfile_or_filelist`
model validator (boundary.py line 69): `if not any([self.bcfile,
self.filelist]): raise ValueError(...)`.  A `Path` value is always truthy in
Python, so the `any` test fails exactly when both fields are `None`. -/
def mkBCFile (b f : Option String) : Except String BCFile :=
  if b = none ∧ f = none then
    Except.error "Either bcfile or filelist must be set"
  else
    Except.ok ⟨b, f⟩

/-- Embedding of `pathlib.Path.name`: the final path component. -/
def baseName (p : String) : String := (p.splitOn "/").getLastD p

/-- Embedding of the `BCFile.namelist` property (boundary.py line 75):
`if self.filelist is not None: return dict(filelist=self.filelist.name)
else: return dict(bcfile=self.bcfile.name)`.  Accessing `.name` on `None`
(both fields unset) is an `AttributeError`, modelled as `none`. -/
def namelist (bc : BCFile) : Option (List (String × String)) :=
  match bc.filelist with
  | some f => some [("filelist", baseName f)]
  | none =>
    match bc.bcfile with
    | some b => some [("bcfile", baseName b)]
    | none => none

/-- Embedding of `BoundaryBase._adjust_time` (boundary.py line 107) acting on
the time coordinate.  The source slices the dataset to `[start, end]`
(`ds.sel(time=slice(time.start, time.end))`, label slicing is inclusive at
both ends), then, testing membership against the FULL original index,
prepends an interpolated sample at `start` when `start` is absent and
appends an interpolated sample at `end` when `end` is absent. -/
def adjust_time (times : List ℤ) (tstart tend : ℤ) : List ℤ :=
  let sliced := times.filter (fun t => decide (tstart ≤ t ∧ t ≤ tend))
  let withStart := if tstart ∈ times then sliced else tstart :: sliced
  if tend ∈ times then withStart else withStart ++ [tend]

/-- The range-error message of `BoundaryBaseStation._validate_time`
(boundary.py line 224): it quotes the requested range and the source range. -/
def rangeErrorMsg (tstart tend t0 t1 : ℤ) : String :=
  "time range " ++ toString tstart ++ " - " ++ toString tend ++
    " outside of source time range " ++ toString t0 ++ " - " ++ toString t1

/-- Embedding of `BoundaryBaseStation._validate_time` (boundary.py line 219):
`t0, t1 = ds.time[[0, -1]]; if time.start < t0 or time.end > t1: raise`. -/
def validate_time (times : List ℤ) (tstart tend : ℤ) : Except String Unit :=
  let t0 := times.headI
  let t1 := times.getLast!
  if tstart < t0 ∨ tend > t1 then
    Except.error (rangeErrorMsg tstart tend t0 t1)
  else
    Except.ok ()

/-- The time-coordinate part of the station extraction pipeline
(`BoundaryBaseStation.get` then `BoundaryStationJons.get`): `_validate_time`
runs first and raises out of the call; only afterwards is the series
padded/interpolated by `_adjust_time`. -/
def station_get_times (times : List ℤ) (tstart tend : ℤ) :
    Except String (List ℤ) := do
  let _ ← validate_time times tstart tend
  Except.ok (adjust_time times tstart tend)

/-- The bcfile name generated by `_instantiate_boundary` (boundary.py
line 348), `f"jons-{t:%Y%m%dT%H%M%S}.txt"`, with the timestamp rendered
through `toString` on the instant. -/
def bcfileNameOf (t : ℤ) : String := "jons-" ++ toString t ++ ".txt"

/-- Embedding of the SEQUENCE (filelist) branch of `BoundaryStationJons.get`
(boundary.py lines 378-392): `for t0, t1 in zip(times[:-1], times[1:])`, one
bcfile is written for the data at `t0` and its duration is
`(t1 - t0).total_seconds()`.  Returns the written bcfile names and the
durations, in loop order. -/
def sequence_emit (times : List ℤ) : List String × List ℤ :=
  ((times.dropLast.zip times.tail).map (fun p => bcfileNameOf p.1),
   (times.dropLast.zip times.tail).map (fun p => p.2 - p.1))

/-- Embedding of `BoundaryStationJons._write_filelist` (boundary.py
line 305) as the list of lines of `filelist.txt`: the header `FILELIST`,
then one line `"{duration} {dbtc} {bcfile}"` per zipped pair. -/
def write_filelist (dbtc : ℚ) (bcfiles : List String) (durations : List ℤ) :
    List String :=
  "FILELIST" ::
    (bcfiles.zip durations).map
      (fun p => toString p.2 ++ " " ++ toString dbtc ++ " " ++ p.1)

/-- A wave-parameter value at one instant: a number or the float NaN. -/
inductive PVal where
  | num (q : ℚ)
  | nan
  deriving DecidableEq, Repr

/-- One instant's row of the statistics dataset: the variables present at
that time, by name. -/
abbrev Row := List (String × PVal)

/-- The parameter names recognized by `_instantiate_boundary`
(boundary.py line 343). -/
def recognizedParams : List String := ["hm0", "tp", "mainang", "gammajsp", "s"]

/-- Embedding of `WaveBoundaryJons` as far as this module constructs it: a
generated bcfile name and the keyword parameters passed through. -/
structure WaveBoundaryJons where
  bcfile : String
  params : List (String × ℚ)
  deriving DecidableEq, Repr

/-- The NaN error message of `_instantiate_boundary` (boundary.py line 347):
it names the offending parameter and the timestamp. -/
def nanErrorMsg (param : String) (t : ℤ) : String :=
  "Parameter " ++ param ++ " is NaN for " ++ toString t

/-- The parameter-collection loop of `_instantiate_boundary` (boundary.py
lines 342-347): for each recognized parameter, a present numeric value is
kept, a present NaN raises naming the parameter and the time, an absent
parameter is skipped. -/
def collectParams (row : Row) (t : ℤ) :
    List String → Except String (List (String × ℚ))
  | [] => Except.ok []
  | p :: ps =>
    match row.lookup p with
    | none => collectParams row t ps
    | some (PVal.num q) =>
      (collectParams row t ps).map (fun rest => (p, q) :: rest)
    | some PVal.nan => Except.error (nanErrorMsg p t)

/-- Embedding of `BoundaryStationJons._instantiate_boundary` (boundary.py
line 330): collect the recognized parameters of the single-time row and
build the `WaveBoundaryJons` record with its timestamped bcfile name. -/
def instantiate_boundary (t : ℤ) (row : Row) : Except String WaveBoundaryJons :=
  (collectParams row t recognizedParams).map
    (fun kw => ⟨bcfileNameOf t, kw⟩)

/-- Names of the coordinates in the dataset (`DatasetCoords`): x, y, time
and site. -/
structure Coords where
  x : String
  y : String
  t : String
  s : String
  deriving DecidableEq, Repr

/-- The shape of a source dataset as far as `validate_coords` inspects it:
its dimension names and its data-variable names. -/
structure DatasetShape where
  dims : List String
  data_vars : List String
  deriving DecidableEq, Repr

/-- Embedding of the `BoundaryBaseStation.validate_coords` model validator
(boundary.py line 177): first each of the time and site coordinates must be
a dimension; then each of the x and y coordinates must NOT be a dimension
and must be a data variable.  The checks run in source order and the first
failing one raises. -/
def validate_coords (c : Coords) (ds : DatasetShape) : Except String Unit :=
  if c.t ∉ ds.dims then
    Except.error ("Coordinate " ++ c.t ++ " not in source dataset")
  else if c.s ∉ ds.dims then
    Except.error ("Coordinate " ++ c.s ++ " not in source dataset")
  else if c.x ∈ ds.dims then
    Except.error (c.x ++ " must not be a dimension in the stations source dataset")
  else if c.x ∉ ds.data_vars then
    Except.error (c.x ++ " must be a variable in the stations source dataset")
  else if c.y ∈ ds.dims then
    Except.error (c.y ++ " must not be a dimension in the stations source dataset")
  else if c.y ∉ ds.data_vars then
    Except.error (c.y ++ " must be a variable in the stations source dataset")
  else
    Except.ok ()

/-- A constructed station boundary object, as far as the claims need it. -/
structure BoundaryStation where
  coords : Coords
  shape : DatasetShape
  deriving DecidableEq, Repr

/-- Construction of a `BoundaryBaseStation`: the pydantic model validator
`validate_coords` runs at construction time, so a failing check means no
object exists; boundary-point selection (`_sel_boundary`) is a method on the
constructed object and is therefore unreached. -/
def mkBoundaryStation (c : Coords) (ds : DatasetShape) :
    Except String BoundaryStation :=
  (validate_coords c ds).map (fun _ => ⟨c, ds⟩)

/-- A parameter configuration of `BoundaryStationParamJons`: either the name
of a source variable (`str`) or a fixed numeric constant (`float`). -/
inductive ParamCfg where
  | var (name : String)
  | const (q : ℝ)

/-- The parameter fields of `BoundaryStationParamJons` (boundary.py
lines 472-507): `hm0`, `tp`, `mainang` with non-None defaults, `gammajsp`
and `dspr` optional. -/
structure ParamJonsCfg where
  hm0 : ParamCfg
  tp : ParamCfg
  mainang : ParamCfg
  gammajsp : Option ParamCfg
  dspr : Option ParamCfg

/-- A source dataset for the parametric deriver: the number of time instants
and the data variables as columns over the time index.  Column entries are
`ℝ`: real source variables are numeric and time-aligned. -/
structure ParamDS where
  n : ℕ
  vars : String → Option (List ℝ)

/-- A variable of the statistics Dataset together with the dimension it was
created on.  Assigning an existing source DataArray (`stats[param] =
ds[name]`) carries the time dimension through (`timeCol`); assigning a bare
Python list or ndarray (`stats[param] = [value] * ds.time.size`) makes
xarray's `as_variable` create the variable on a NEW dimension named after
the key — never aligned to time (`ownDim`).  `ownDim` entries are `Option ℝ`
with `none` modelling the Python `None` value that the unguarded loop stores
for an unconfigured optional parameter. -/
inductive StatsVar where
  | timeCol (col : List ℝ)
  | ownDim (vals : List (Option ℝ))

/-- One iteration of the parameter loop of
`BoundaryStationParamJons._calculate_stats` (boundary.py lines 519-523):
`isinstance(getattr(self, param), str)` selects the source column, which is
time-aligned (a missing variable is a KeyError); any non-string
configuration, including `None`, takes the `elif isinstance:` branch (the
bare `isinstance` builtin is always truthy) and assigns the bare list
`[value] * ds.time.size`, which xarray stores on the variable's own new
dimension, not on time. -/
def resolveParam (ds : ParamDS) (cfg : Option ParamCfg) :
    Except String StatsVar :=
  match cfg with
  | some (ParamCfg.var name) =>
    match ds.vars name with
    | some col => Except.ok (StatsVar.timeCol col)
    | none => Except.error ("KeyError: " ++ name)
  | some (ParamCfg.const q) =>
    Except.ok (StatsVar.ownDim (List.replicate ds.n (some q)))
  | none => Except.ok (StatsVar.ownDim (List.replicate ds.n none))

/-- Embedding of `BoundaryStationParamJons._calculate_stats` (boundary.py
line 509): resolve `hm0`, `tp`, `mainang`, `gammajsp` in order, then, only
when `dspr` is configured, append the spreading-exponent column `s`: from a
named variable it is the converted time-aligned column; from a constant,
`dspr_to_s([c] * ds.time.size)` is a bare ndarray, so it too lands on its
own dimension. -/
noncomputable def calculate_stats_param (cfg : ParamJonsCfg) (ds : ParamDS) :
    Except String (List (String × StatsVar)) :=
  match resolveParam ds (some cfg.hm0) with
  | Except.error e => Except.error e
  | Except.ok h =>
    match resolveParam ds (some cfg.tp) with
    | Except.error e => Except.error e
    | Except.ok t =>
      match resolveParam ds (some cfg.mainang) with
      | Except.error e => Except.error e
      | Except.ok m =>
        match resolveParam ds cfg.gammajsp with
        | Except.error e => Except.error e
        | Except.ok g =>
          let base := [("hm0", h), ("tp", t), ("mainang", m), ("gammajsp", g)]
          match cfg.dspr with
          | none => Except.ok base
          | some (ParamCfg.var name) =>
            match ds.vars name with
            | some col =>
              Except.ok (base ++
                [("s", StatsVar.timeCol (col.map (fun d => dspr_to_s d)))])
            | none => Except.error ("KeyError: " ++ name)
          | some (ParamCfg.const q) =>
            Except.ok (base ++
              [("s", StatsVar.ownDim (List.replicate ds.n (some (dspr_to_s q))))])

/-- The value of a statistics variable seen by `_instantiate_boundary` after
`data = stats.sel(time=[t_i])` (boundary.py line 387), as the list of its
elements: a time-aligned column is reduced to its single i-th sample, while
a variable living on its own dimension is untouched by time selection and
keeps all its entries. -/
def selInstant (v : StatsVar) (i : ℕ) : List (Option ℝ) :=
  match v with
  | StatsVar.timeCol col =>
    match col[i]? with
    | some x => [some x]
    | none => []
  | StatsVar.ownDim vals => vals

/-- The numpy ambiguous-truth-value error raised by `not np.isnan(arr)` on
an array of two or more elements. -/
def ambiguousTruthMsg : String :=
  "The truth value of an array with more than one element is ambiguous." ++
    " Use a.any() or a.all()"

/-- The `hm0` iteration (the first, in scan order) of the parameter loop of
`_instantiate_boundary` (boundary.py lines 343-347) under array semantics:
an absent parameter is skipped (`Except.ok none`); a present single numeric
value passes `not np.isnan(...)` and is kept; a present single NaN raises
naming the parameter and the timestamp (line 347); a present value of two or
more elements — what a constant-configured parameter produces for a source
with two or more instants — makes the truth test itself raise the numpy
ambiguous-truth-value ValueError. -/
def instantiate_boundary_hm0_step (t : ℤ) (stats : List (String × StatsVar))
    (i : ℕ) : Except String (Option ℝ) :=
  match stats.lookup "hm0" with
  | none => Except.ok none
  | some v =>
    match selInstant v i with
    | [some x] => Except.ok (some x)
    | [none] => Except.error (nanErrorMsg "hm0" t)
    | _ => Except.error ambiguousTruthMsg

/-- The parametric configuration of C5's failing scenario: height the
constant `1.0`, period and direction from source variables, the optional
parameters unset. -/
def paramCfgConstHm0 : ParamJonsCfg :=
  ParamJonsCfg.mk (ParamCfg.const 1) (ParamCfg.var "tp") (ParamCfg.var "dpm")
    none none

/-- A two-instant source series carrying the `tp` and `dpm` variables. -/
def paramSourceTwo : ParamDS :=
  ParamDS.mk 2
    (fun name =>
      if name = "tp" then some [10, 11]
      else if name = "dpm" then some [180, 181]
      else none)

/-- The statistics table `_calculate_stats` produces for `paramCfgConstHm0`
over `paramSourceTwo`: `hm0` is a length-2 variable on its own dimension. -/
noncomputable def paramStatsConstHm0 : List (String × StatsVar) :=
  [("hm0", StatsVar.ownDim (List.replicate 2 (some (1 : ℝ)))),
   ("tp", StatsVar.timeCol [10, 11]),
   ("mainang", StatsVar.timeCol [180, 181]),
   ("gammajsp", StatsVar.ownDim (List.replicate 2 none))]

/-- C3, counterexample.  The claim says the spread-to-exponent conversion
raises an error for spread = 0; but `dspr_to_s` has no error path at all:
the call at 0 returns normally (in numpy the division by zero yields `inf`
with a warning, it does not raise). -/
theorem dspr_to_s_zero_returns : (dspr_to_s_call 0).isOk = true := rfl

/-- C3, amended.  For spread = 0 the conversion does not raise: the call
returns normally while the denominator `radians(0)^2` of the conversion is
exactly 0, so the source's float division produces a non-finite value
(infinity) rather than an error. -/
theorem dspr_to_s_zero_no_raise :
    (dspr_to_s_call 0).isOk = true ∧ radians 0 ^ 2 = 0 := by
  refine ⟨rfl, ?_⟩
  simp [radians]

/-- C4, counterexample.  The claim says a descriptor with both the single
file and the file list populated is never produced; but the validator only
requires at least one of them, so constructing a `BCFile` with both set
succeeds. -/
theorem bcfile_both_populated_ok :
    (mkBCFile (some "jons.txt") (some "filelist.txt")).isOk = true := by decide

/-- C4, amended.  `BCFile` construction fails when neither `bcfile` nor
`filelist` is set, and succeeds exactly when at least one of them is set:
the validator enforces at-least-one, not exactly-one, so a descriptor with
both populated is accepted. -/
theorem bcfile_at_least_one :
    (mkBCFile none none).isOk = false ∧
      ∀ b f : Option String,
        (mkBCFile b f).isOk = true ↔ (b ≠ none ∨ f ≠ none) := by
  refine ⟨rfl, ?_⟩
  intro b f
  by_cases hb : b = none ∧ f = none
  · simp [mkBCFile, hb.1, hb.2, Except.isOk, Except.toBool]
  · rw [not_and_or] at hb
    simp only [mkBCFile, if_neg (by tauto : ¬(b = none ∧ f = none))]
    simpa [Except.isOk, Except.toBool] using hb

/-- C4, witness for the amended theorem at concrete inputs. -/
theorem bcfile_at_least_one_witness :
    (mkBCFile none none).isOk = false ∧
      ((mkBCFile (some "jons.txt") none).isOk = true ↔
        ((some "jons.txt" : Option String) ≠ none ∨ (none : Option String) ≠ none)) :=
  ⟨bcfile_at_least_one.1, bcfile_at_least_one.2 (some "jons.txt") none⟩

/-- The telescoping identity behind duration conservation: the durations of
the consecutive-pair loop sum to the elapsed time between the first and the
last instant. -/
theorem durations_sum : ∀ (a : ℤ) (l : List ℤ),
    (((a :: l).dropLast.zip (a :: l).tail).map (fun p => p.2 - p.1)).sum
      = ((a :: l).getLast?.getD a) - a
  | _, [] => by simp
  | a, b :: r => by
    have ih := durations_sum b r
    simp only [List.dropLast, List.tail, List.zip, List.zipWith, List.map,
      List.sum_cons, List.getLast?_cons_cons] at ih ⊢
    have hg : ∀ x : ℤ, ((b :: r).getLast?.getD x) = ((b :: r).getLast?.getD b) := by
      intro x
      cases h : (b :: r).getLast? with
      | none => simp [List.getLast?] at h
      | some y => simp
    rw [hg a]
    omega

/-- The bcfiles written by the consecutive-pair loop are exactly one per
instant of the series except the last. -/
theorem sequence_emit_files (times : List ℤ) :
    (sequence_emit times).1 = times.dropLast.map bcfileNameOf := by
  have hlen : times.dropLast.length ≤ times.tail.length := by
    simp [List.length_dropLast, List.length_tail]
  calc (times.dropLast.zip times.tail).map (fun p => bcfileNameOf p.1)
      = ((times.dropLast.zip times.tail).map Prod.fst).map bcfileNameOf := by
        rw [List.map_map]
        rfl
    _ = times.dropLast.map bcfileNameOf := by
        rw [List.map_fst_zip _ _ hlen]

/-- C1.  In SEQUENCE (filelist) mode, for a Padded Series of `N ≥ 2` strictly
increasing instants: exactly `N - 1` bcfiles are written; the index file has
exactly `N - 1` data lines after its `FILELIST` header; the durations sum to
the elapsed seconds between the first and the last instant; the emitted
files correspond exactly to all instants but the last; and the final instant
is never emitted as a record of its own. -/
theorem sequence_mode_conservation (dbtc : ℚ) (times : List ℤ) (t0 tN : ℤ)
    (h2 : 2 ≤ times.length)
    (hs : times.Pairwise (· < ·))
    (h0 : times.head? = some t0)
    (hN : times.getLast? = some tN) :
    (sequence_emit times).1.length = times.length - 1 ∧
    (write_filelist dbtc (sequence_emit times).1
        (sequence_emit times).2).tail.length = times.length - 1 ∧
    (sequence_emit times).2.sum = tN - t0 ∧
    (sequence_emit times).1 = times.dropLast.map bcfileNameOf ∧
    tN ∉ times.dropLast := by
  have hne : times ≠ [] := by
    intro hnil
    rw [hnil] at h2
    simp at h2
  have hzlen : (times.dropLast.zip times.tail).length = times.length - 1 := by
    simp [List.length_zip, List.length_dropLast, List.length_tail]
  refine ⟨?_, ?_, ?_, sequence_emit_files times, ?_⟩
  · simp [sequence_emit, hzlen]
  · simp only [write_filelist, List.tail_cons, List.length_map, List.length_zip,
      sequence_emit, hzlen]
    omega
  · obtain ⟨a, l, rfl⟩ : ∃ a l, times = a :: l := by
      cases times with
      | nil => exact absurd rfl hne
      | cons a l => exact ⟨a, l, rfl⟩
    have ha : a = t0 := by
      simpa using h0
    have := durations_sum a l
    rw [hN] at this
    simpa [sequence_emit, ha] using this
  · intro hmem
    have hsplit : times.dropLast ++ [times.getLast hne] = times :=
      List.dropLast_append_getLast hne
    have htN : times.getLast hne = tN := by
      have := List.getLast?_eq_getLast times hne
      rw [hN] at this
      exact (Option.some_injective _ this.symm)
    have hpw := hs
    rw [← hsplit] at hpw
    rw [List.pairwise_append] at hpw
    have := hpw.2.2 tN hmem (times.getLast hne) (by simp)
    rw [htN] at this
    exact lt_irrefl tN this

/-- C1, witness: the three-instant series `[0, 3600, 7200]` with the default
substep 1.0. -/
theorem sequence_mode_conservation_witness :
    2 ≤ ([0, 3600, 7200] : List ℤ).length ∧
    ([0, 3600, 7200] : List ℤ).Pairwise (· < ·) ∧
    ([0, 3600, 7200] : List ℤ).head? = some 0 ∧
    ([0, 3600, 7200] : List ℤ).getLast? = some 7200 ∧
    ((sequence_emit [0, 3600, 7200]).1.length = ([0, 3600, 7200] : List ℤ).length - 1 ∧
      (write_filelist 1 (sequence_emit [0, 3600, 7200]).1
          (sequence_emit [0, 3600, 7200]).2).tail.length
        = ([0, 3600, 7200] : List ℤ).length - 1 ∧
      (sequence_emit [0, 3600, 7200]).2.sum = 7200 - 0 ∧
      (sequence_emit [0, 3600, 7200]).1 = ([0, 3600, 7200] : List ℤ).dropLast.map bcfileNameOf ∧
      (7200 : ℤ) ∉ ([0, 3600, 7200] : List ℤ).dropLast) :=
  ⟨by decide, by decide, by decide, by decide,
    sequence_mode_conservation 1 [0, 3600, 7200] 0 7200
      (by decide) (by decide) (by decide) (by decide)⟩

/-- C9.  For every positive directional spread `d` in degrees, applying the
forward conversion `s = 2/radians(d)^2 - 1` of `dspr_to_s` and then the
spec's backward map `degrees(sqrt(2/(s+1)))` returns `d` exactly. -/
theorem dspr_to_s_round_trip (d : ℝ) (hd : 0 < d) :
    s_to_dspr_spec (dspr_to_s d) = d := by
  have hpi : (0 : ℝ) < Real.pi := Real.pi_pos
  have hr : 0 < radians d := by
    unfold radians
    positivity
  unfold s_to_dspr_spec dspr_to_s
  have h1 : 2 / radians d ^ 2 - 1 + 1 = 2 / radians d ^ 2 := by ring
  rw [h1]
  have h2 : (2 : ℝ) / (2 / radians d ^ 2) = radians d ^ 2 := by
    rw [div_div_eq_mul_div, mul_div_assoc]
    field_simp
  rw [h2, Real.sqrt_sq hr.le]
  unfold degrees radians
  field_simp

/-- C9, witness at the concrete spread 90 degrees. -/
theorem dspr_to_s_round_trip_witness :
    (0 : ℝ) < 90 ∧ s_to_dspr_spec (dspr_to_s 90) = 90 :=
  ⟨by norm_num, dspr_to_s_round_trip 90 (by norm_num)⟩

/-- C10.  For a `BCFile` with both references populated, the `namelist`
property returns the mapping with only the `filelist` key, holding the
filelist reference's base name: `filelist` takes precedence and `bcfile` is
ignored. -/
theorem namelist_filelist_precedence (b f : String) :
    namelist ⟨some b, some f⟩ = some [("filelist", baseName f)] := rfl

/-- Filtering a list keeps as first element any member that satisfies the
predicate while everything related-before it fails the predicate. -/
theorem head?_filter_of_first {α : Type} {R : α → α → Prop} {p : α → Bool} :
    ∀ {l : List α}, l.Pairwise R → ∀ {a : α}, a ∈ l → p a = true →
      (∀ x ∈ l, R x a → p x = false) → (l.filter p).head? = some a
  | [], _, a, ha, _, _ => absurd ha (List.not_mem_nil a)
  | x :: xs, hpw, a, ha, hpa, hbefore => by
    rcases List.mem_cons.mp ha with rfl | hmem
    · rw [List.filter_cons_of_pos hpa]
      rfl
    · have hxa : R x a := (List.pairwise_cons.mp hpw).1 a hmem
      have hpx : p x = false := hbefore x (List.mem_cons_self x xs) hxa
      rw [List.filter_cons_of_neg (by simp [hpx])]
      exact head?_filter_of_first (List.pairwise_cons.mp hpw).2 hmem hpa
        (fun y hy hya => hbefore y (List.mem_cons_of_mem x hy) hya)

/-- Filtering a list keeps as last element any member that satisfies the
predicate while everything after it fails the predicate. -/
theorem getLast?_filter_of_last {α : Type} {R : α → α → Prop} {p : α → Bool}
    {l : List α} (hpw : l.Pairwise R) {a : α} (ha : a ∈ l) (hpa : p a = true)
    (hafter : ∀ x ∈ l, R a x → p x = false) :
    (l.filter p).getLast? = some a := by
  rw [← List.head?_reverse, ← List.filter_reverse]
  exact head?_filter_of_first (List.pairwise_reverse.mpr hpw)
    (List.mem_reverse.mpr ha) hpa
    (fun x hx hax => hafter x (List.mem_reverse.mp hx) hax)

/-- C2, amended.  For a strictly increasing source time index and a
requested interval `[tstart, tend]` (with `tstart ≤ tend`) inside the source
span, the series returned by `_adjust_time` starts exactly at `tstart` and
ends exactly at `tend`; it contains no duplicate time instants whenever the
interval is nondegenerate (`tstart < tend`) or its common endpoint is
already a source instant; but for a degenerate interval `tstart = tend` not
among the source instants, both the prepend and the append splice an
interpolated sample at the same instant and the result is the duplicated
series `[tstart, tstart]`. -/
theorem adjust_time_endpoints (times : List ℤ) (tstart tend : ℤ)
    (hs : times.Pairwise (· < ·))
    (hne : times ≠ [])
    (hlo : times.headI ≤ tstart)
    (hhi : tend ≤ times.getLast!)
    (hle : tstart ≤ tend) :
    (adjust_time times tstart tend).head? = some tstart ∧
    (adjust_time times tstart tend).getLast? = some tend ∧
    ((tstart < tend ∨ tstart ∈ times) → (adjust_time times tstart tend).Nodup) ∧
    (tstart = tend ∧ tstart ∉ times →
      adjust_time times tstart tend = [tstart, tstart]) := by
  have hnodup : times.Nodup := hs.nodup
  set p : ℤ → Bool := fun t => decide (tstart ≤ t ∧ t ≤ tend) with hp
  have hslice_nodup : (times.filter p).Nodup := List.Nodup.filter p hnodup
  have hps : p tstart = true := by simp [hp, hle]
  have hpe : p tend = true := by simp [hp, hle]
  have hhead : tstart ∈ times → (times.filter p).head? = some tstart := by
    intro hmem
    refine head?_filter_of_first (R := (· < ·)) hs hmem hps ?_
    intro x _ hx
    simp [hp]
    intro hx'
    omega
  have hlast : tend ∈ times → (times.filter p).getLast? = some tend := by
    intro hmem
    refine getLast?_filter_of_last (R := (· < ·)) hs hmem hpe ?_
    intro x _ hx
    simp [hp]
    intro hx'
    omega
  by_cases hstart : tstart ∈ times <;> by_cases hend : tend ∈ times
  · -- both endpoints already present: the result is the bare slice
    have hr : adjust_time times tstart tend = times.filter p := by
      simp [adjust_time, hstart, hend, hp]
    refine ⟨?_, ?_, ?_, ?_⟩
    · rw [hr]
      exact hhead hstart
    · rw [hr]
      exact hlast hend
    · intro _
      rw [hr]
      exact hslice_nodup
    · rintro ⟨_, hnotin⟩
      exact absurd hstart hnotin
  · -- start present, end interpolated and appended
    have hr : adjust_time times tstart tend = times.filter p ++ [tend] := by
      simp [adjust_time, hstart, hend, hp]
    have hsne : times.filter p ≠ [] := by
      intro hnil
      have : tstart ∈ times.filter p := List.mem_filter.mpr ⟨hstart, hps⟩
      rw [hnil] at this
      exact absurd this (List.not_mem_nil tstart)
    refine ⟨?_, ?_, ?_, ?_⟩
    · rw [hr, List.head?_append_of_ne_nil _ hsne]
      exact hhead hstart
    · rw [hr]
      exact List.getLast?_concat _
    · intro _
      rw [hr, List.nodup_append]
      refine ⟨hslice_nodup, List.nodup_singleton tend, ?_⟩
      intro x hx hx1
      rw [List.mem_singleton] at hx1
      subst hx1
      exact hend (List.mem_filter.mp hx).1
    · rintro ⟨_, hnotin⟩
      exact absurd hstart hnotin
  · -- start interpolated and prepended, end present
    have hr : adjust_time times tstart tend = tstart :: times.filter p := by
      simp [adjust_time, hstart, hend, hp]
    have hene : times.filter p ≠ [] := by
      intro hnil
      have : tend ∈ times.filter p := List.mem_filter.mpr ⟨hend, hpe⟩
      rw [hnil] at this
      exact absurd this (List.not_mem_nil tend)
    refine ⟨?_, ?_, ?_, ?_⟩
    · rw [hr]
      rfl
    · rw [hr, show tstart :: times.filter p = [tstart] ++ times.filter p from rfl,
        List.getLast?_append_of_ne_nil _ hene]
      exact hlast hend
    · intro _
      rw [hr, List.nodup_cons]
      refine ⟨?_, hslice_nodup⟩
      intro hx
      exact hstart (List.mem_filter.mp hx).1
    · rintro ⟨rfl, _⟩
      exact absurd hend hstart
  · -- both endpoints interpolated
    have hr : adjust_time times tstart tend
        = (tstart :: times.filter p) ++ [tend] := by
      simp [adjust_time, hstart, hend, hp]
    refine ⟨?_, ?_, ?_, ?_⟩
    · rw [hr, List.head?_append_of_ne_nil _ (List.cons_ne_nil tstart _)]
      rfl
    · rw [hr]
      exact List.getLast?_concat _
    · intro hcond
      rw [hr, List.nodup_append]
      refine ⟨?_, List.nodup_singleton tend, ?_⟩
      · rw [List.nodup_cons]
        refine ⟨?_, hslice_nodup⟩
        intro hx
        exact hstart (List.mem_filter.mp hx).1
      · intro x hx hx1
        rw [List.mem_singleton] at hx1
        subst hx1
        rcases List.mem_cons.mp hx with heq | hmem
        · rcases hcond with hlt | hmem2
          · omega
          · exact absurd hmem2 hstart
        · exact hend (List.mem_filter.mp hmem).1
    · rintro ⟨rfl, hnotin⟩
      have hfil : times.filter p = [] := by
        rw [List.filter_eq_nil_iff]
        intro a ha hpa
        simp only [hp, decide_eq_true_eq] at hpa
        have haeq : a = tstart := le_antisymm hpa.2 hpa.1
        rw [haeq] at ha
        exact hnotin ha
      rw [hr, hfil]
      rfl

/-- C2, counterexample to the claim as stated.  The degenerate interval
`[5, 5]` lies within the span of the strictly increasing source series
`[0, 10]`, yet `_adjust_time` splices an interpolated sample at 5 both at
the front and at the back of the empty slice, returning `[5, 5]`: a
duplicated time instant, violating the no-duplicates conclusion. -/
theorem adjust_time_degenerate_duplicate :
    ([0, 10] : List ℤ).Pairwise (· < ·) ∧
    ([0, 10] : List ℤ).headI ≤ 5 ∧
    (5 : ℤ) ≤ ([0, 10] : List ℤ).getLast! ∧
    adjust_time [0, 10] 5 5 = [5, 5] ∧
    ¬ (adjust_time [0, 10] 5 5).Nodup := by decide

/-- C2, witness: source instants `[0, 10]`, requested interval `[3, 7]`. -/
theorem adjust_time_endpoints_witness :
    ([0, 10] : List ℤ).Pairwise (· < ·) ∧
    ([0, 10] : List ℤ) ≠ [] ∧
    ([0, 10] : List ℤ).headI ≤ 3 ∧
    (7 : ℤ) ≤ ([0, 10] : List ℤ).getLast! ∧
    (3 : ℤ) ≤ 7 ∧
    ((adjust_time [0, 10] 3 7).head? = some 3 ∧
      (adjust_time [0, 10] 3 7).getLast? = some 7 ∧
      (((3 : ℤ) < 7 ∨ (3 : ℤ) ∈ ([0, 10] : List ℤ)) →
        (adjust_time [0, 10] 3 7).Nodup) ∧
      ((3 : ℤ) = 7 ∧ (3 : ℤ) ∉ ([0, 10] : List ℤ) →
        adjust_time [0, 10] 3 7 = [3, 3])) :=
  ⟨by decide, by decide, by decide, by decide, by decide,
    adjust_time_endpoints [0, 10] 3 7
      (by decide) (by decide) (by decide) (by decide) (by decide)⟩

/-- When some parameter in the scanned name list is present and NaN, the
collection loop of `_instantiate_boundary` raises, naming one of the NaN
parameters (the first in scan order) and the timestamp. -/
theorem collectParams_nan (row : Row) (t : ℤ) :
    ∀ ps : List String, (∃ p ∈ ps, row.lookup p = some PVal.nan) →
      ∃ p ∈ ps, row.lookup p = some PVal.nan ∧
        collectParams row t ps = Except.error (nanErrorMsg p t)
  | [], h => by
    obtain ⟨p, hp, _⟩ := h
    exact absurd hp (List.not_mem_nil p)
  | q :: qs, h => by
    cases hq : row.lookup q with
    | none =>
      have hqs : ∃ p ∈ qs, row.lookup p = some PVal.nan := by
        obtain ⟨p, hp, hnan⟩ := h
        rcases List.mem_cons.mp hp with rfl | hmem
        · rw [hq] at hnan
          exact absurd hnan (by simp)
        · exact ⟨p, hmem, hnan⟩
      obtain ⟨p, hp, hnan, heq⟩ := collectParams_nan row t qs hqs
      refine ⟨p, List.mem_cons_of_mem q hp, hnan, ?_⟩
      simpa [collectParams, hq] using heq
    | some v =>
      cases v with
      | num x =>
        have hqs : ∃ p ∈ qs, row.lookup p = some PVal.nan := by
          obtain ⟨p, hp, hnan⟩ := h
          rcases List.mem_cons.mp hp with rfl | hmem
          · rw [hq] at hnan
            exact absurd hnan (by simp)
          · exact ⟨p, hmem, hnan⟩
        obtain ⟨p, hp, hnan, heq⟩ := collectParams_nan row t qs hqs
        refine ⟨p, List.mem_cons_of_mem q hp, hnan, ?_⟩
        simp [collectParams, hq, heq, Except.map]
      | nan =>
        refine ⟨q, List.mem_cons_self q qs, hq, ?_⟩
        simp [collectParams, hq]

/-- C6.  If any recognized parameter of a single-instant row is present but
NaN, `_instantiate_boundary` fails with the error naming that parameter and
the timestamp, and no boundary record is produced for that instant.
(A produced record holds rational parameter values only, so a record
containing NaN is not even representable.) -/
theorem instantiate_boundary_nan (t : ℤ) (row : Row)
    (h : ∃ p ∈ recognizedParams, row.lookup p = some PVal.nan) :
    (∃ p ∈ recognizedParams, row.lookup p = some PVal.nan ∧
      instantiate_boundary t row = Except.error (nanErrorMsg p t)) ∧
    ∀ wb, instantiate_boundary t row ≠ Except.ok wb := by
  obtain ⟨p, hp, hnan, heq⟩ := collectParams_nan row t recognizedParams h
  have hinst : instantiate_boundary t row = Except.error (nanErrorMsg p t) := by
    simp [instantiate_boundary, heq, Except.map]
  refine ⟨⟨p, hp, hnan, hinst⟩, ?_⟩
  intro wb hok
  rw [hinst] at hok
  exact Except.noConfusion hok

/-- C6, witness: a row whose `hm0` is NaN at instant 0. -/
theorem instantiate_boundary_nan_witness :
    (∃ p ∈ recognizedParams,
      (([("hm0", PVal.nan)] : Row).lookup p = some PVal.nan)) ∧
    ((∃ p ∈ recognizedParams,
        (([("hm0", PVal.nan)] : Row).lookup p = some PVal.nan ∧
          instantiate_boundary 0 [("hm0", PVal.nan)]
            = Except.error (nanErrorMsg p 0))) ∧
      ∀ wb, instantiate_boundary 0 [("hm0", PVal.nan)] ≠ Except.ok wb) :=
  ⟨by decide, instantiate_boundary_nan 0 [("hm0", PVal.nan)] (by decide)⟩

/-- C7.  For a requested range whose start precedes the source's first
instant or whose end exceeds its last, the station extraction pipeline
returns the range error quoting both the requested and the source interval;
the error is produced by `_validate_time`, which the pipeline runs strictly
before the interpolation/padding step, so no interpolation is attempted. -/
theorem station_get_range_error (times : List ℤ) (tstart tend : ℤ)
    (hne : times ≠ [])
    (hout : tstart < times.headI ∨ tend > times.getLast!) :
    station_get_times times tstart tend =
      Except.error (rangeErrorMsg tstart tend times.headI times.getLast!) := by
  have hval : validate_time times tstart tend =
      Except.error (rangeErrorMsg tstart tend times.headI times.getLast!) := by
    simp [validate_time, if_pos hout]
  unfold station_get_times
  rw [hval]
  rfl

/-- C7, witness: source instants `[10, 20]`, requested range `[5, 15]`. -/
theorem station_get_range_error_witness :
    ([10, 20] : List ℤ) ≠ [] ∧
    ((5 : ℤ) < ([10, 20] : List ℤ).headI ∨ (15 : ℤ) > ([10, 20] : List ℤ).getLast!) ∧
    station_get_times [10, 20] 5 15 =
      Except.error (rangeErrorMsg 5 15 ([10, 20] : List ℤ).headI
        ([10, 20] : List ℤ).getLast!) :=
  ⟨by decide, by decide,
    station_get_range_error [10, 20] 5 15 (by decide) (by decide)⟩

/-- C8.  For a stations-type source in which the x or the y coordinate name
appears among the dimensions, constructing the boundary object fails: the
`validate_coords` model validator raises at construction, so no object
exists and boundary-point selection (a method of the constructed object) is
never attempted. -/
theorem station_dim_coord_error (c : Coords) (ds : DatasetShape)
    (h : c.x ∈ ds.dims ∨ c.y ∈ ds.dims) :
    (mkBoundaryStation c ds).isOk = false ∧
      ∀ st, mkBoundaryStation c ds ≠ Except.ok st := by
  have hnotok : ∀ u, validate_coords c ds ≠ Except.ok u := by
    intro u hok
    unfold validate_coords at hok
    split_ifs at hok with h1 h2 h3 h4 h5 h6 <;>
      first
        | exact Except.noConfusion hok
        | tauto
  have hmk : ∀ st, mkBoundaryStation c ds ≠ Except.ok st := by
    intro st hok
    unfold mkBoundaryStation at hok
    cases hv : validate_coords c ds with
    | ok u => exact hnotok u hv
    | error e =>
      rw [hv] at hok
      exact Except.noConfusion hok
  refine ⟨?_, hmk⟩
  cases hm : mkBoundaryStation c ds with
  | ok st => exact absurd hm (hmk st)
  | error e => rfl

/-- C8, witness: longitude `lon` appears as a dimension of the source. -/
theorem station_dim_coord_error_witness :
    (let c : Coords := ⟨"lon", "lat", "time", "site"⟩
     let ds : DatasetShape := ⟨["time", "site", "lon"], ["lat"]⟩
     (c.x ∈ ds.dims ∨ c.y ∈ ds.dims) ∧
       ((mkBoundaryStation c ds).isOk = false ∧
         ∀ st, mkBoundaryStation c ds ≠ Except.ok st)) :=
  ⟨by decide,
    station_dim_coord_error ⟨"lon", "lat", "time", "site"⟩
      ⟨["time", "site", "lon"], ["lat"]⟩ (by decide)⟩

/-- C5, the code evaluated at the failing input.  With `hm0` the constant
`1.0` and a two-instant source, `_calculate_stats` succeeds but stores `hm0`
as a length-2 variable on its own new dimension, not aligned to time; for
both records of the SEQUENCE loop, the very first parameter check of
`_instantiate_boundary` then sees the whole 2-element array and raises the
numpy ambiguous-truth-value ValueError.  No boundary record — with height
1.0 or otherwise — is ever emitted, contrary to the claim. -/
theorem param_hm0_const_aborts :
    calculate_stats_param paramCfgConstHm0 paramSourceTwo
        = Except.ok paramStatsConstHm0 ∧
    instantiate_boundary_hm0_step 0 paramStatsConstHm0 0
        = Except.error ambiguousTruthMsg ∧
    instantiate_boundary_hm0_step 0 paramStatsConstHm0 1
        = Except.error ambiguousTruthMsg :=
  ⟨rfl, rfl, rfl⟩

end RompyXBeach
